import Mathlib

/-!
Verification of the slide-generation pipeline of the RFP-slides-generator
backend (src/RAG-pdf-search-BE/src/rfp-slides.js).

The development shallowly embeds the `/generate-slides` route handler and the
pieces of JavaScript semantics it leans on:

* the regular expression `\[\s*{[\s\S]*}\s*\]` applied with `String.match`
  (leftmost start, greedy extent) used to fish a JSON array out of the model's
  free-form reply;
* `JSON.parse` (modelled by a fuel-driven recursive-descent parser for the
  JSON grammar; numbers are kept as their source lexemes, which is exact for
  the integer literals exercised here);
* `JSON.stringify` for the persisted `slides` column;
* JavaScript truthiness for the optional request fields, `x || 'None'` /
  `x || 'Default'` defaulting, and the behaviour of `value.length` on each
  kind of parsed JSON value (including the `TypeError` thrown on `null`);
* the handler's sequencing: request validation, store lookups, prompt
  construction, parse, record write, response.

Stored collections are modelled as in-memory lists; the Weaviate point lookup
(`where filename Equal ... limit 1`) becomes `List.find?`. The language-model
call is an oracle `String → String → String` from the two chat messages to
the raw completion text.
-/

/-! ## Character classes -/

/-- The characters matched by the JavaScript regex class `\s`. -/
def isWs (c : Char) : Bool :=
  let n := c.toNat
  n == 9 || n == 10 || n == 11 || n == 12 || n == 13 || n == 32 ||
  n == 160 || n == 0x1680 || (0x2000 ≤ n && n ≤ 0x200A) ||
  n == 0x2028 || n == 0x2029 || n == 0x202F || n == 0x205F ||
  n == 0x3000 || n == 0xFEFF

/-- JSON (RFC 8259) insignificant whitespace, as accepted by `JSON.parse`. -/
def isJsonWs (c : Char) : Bool :=
  c == ' ' || c == '\t' || c == '\n' || c == '\r'

/-- ASCII decimal digit. -/
def isDigit (c : Char) : Bool := '0' ≤ c && c ≤ '9'

/-! ## The extraction regex `\[\s*{[\s\S]*}\s*\]`

`responseText.match(/\[\s*{[\s\S]*}\s*\]/)` returns the leftmost match; at
that start the greedy `[\s\S]*` makes the match run to the last position
where the tail `}\s*\]` can close.  The functions below reproduce exactly
that backtracking behaviour on the character list of the subject string. -/

/-- Match the regex tail `\}\s*\]` at the head of `l`: a `}` followed by
whitespace and a `]`.  Returns how many characters the tail consumes. -/
def closeLen (l : List Char) : Option Nat :=
  match l with
  | '}' :: rest =>
    match rest.dropWhile isWs with
    | ']' :: _ => some ((rest.takeWhile isWs).length + 2)
    | _ => none
  | _ => none

/-- Index (from the head of `l`) and consumed length of the **last** position
where `closeLen` succeeds; the greedy `[\s\S]*` backtracks to precisely this
position. -/
def lastCloseAux : List Char → Option (Nat × Nat)
  | [] => none
  | c :: rest =>
    match lastCloseAux rest with
    | some (k, m) => some (k + 1, m)
    | none =>
      match closeLen (c :: rest) with
      | some m => some (0, m)
      | none => none

/-- Match the regex head `\[\s*\{` at the head of `l`; returns the
whitespace run and the characters after the `{`. -/
def openSplit (l : List Char) : Option (List Char × List Char) :=
  match l with
  | '[' :: rest =>
    match rest.dropWhile isWs with
    | '{' :: t => some (rest.takeWhile isWs, t)
    | _ => none
  | _ => none

/-- The characters after the `{` of the regex head, when it matches. -/
def openTail (l : List Char) : Option (List Char) :=
  (openSplit l).map (fun p => p.2)

/-- Attempt the whole regex anchored at the head of `l`; returns the length
of the (greedy) match. -/
def tryMatchAt (l : List Char) : Option Nat :=
  match openSplit l with
  | some (w, t) =>
    match lastCloseAux t with
    | some (k, m) => some (2 + w.length + k + m)
    | none => none
  | none => none

/-- Leftmost match of the regex over `l`, as the matched character list. -/
def jsonMatchAux : List Char → Option (List Char)
  | [] => none
  | c :: rest =>
    match tryMatchAt (c :: rest) with
    | some n => some ((c :: rest).take n)
    | none => jsonMatchAux rest

/-- `rawText.match(/\[\s*{[\s\S]*}\s*\]/)`: the matched substring, if any. -/
def jsonMatch (s : String) : Option String :=
  (jsonMatchAux s.data).map String.mk

/-! Independent descriptions of the shapes involved, used to characterise the
match without mentioning the matcher's own recursion. -/

/-- `l` begins with `[`, whitespace, `{`. -/
def opensArr (l : List Char) : Bool := (openTail l).isSome

/-- `l` ends with `}`, whitespace, `]`. -/
def closesArr (l : List Char) : Bool :=
  match l.reverse with
  | ']' :: t =>
    match t.dropWhile isWs with
    | '}' :: _ => true
    | _ => false
  | _ => false

/-- Some suffix of `l` begins with the closing shape `}`‑whitespace‑`]`. -/
def hasCloseB : List Char → Bool
  | [] => false
  | c :: rest => (closeLen (c :: rest)).isSome || hasCloseB rest

/-- The regex can match starting exactly here: the opening shape
`[`‑whitespace‑`{` begins at the head and some closing shape follows. -/
def startsHere (l : List Char) : Bool :=
  match openTail l with
  | some u => hasCloseB u
  | none => false

/-! ## A model of `JSON.parse`

Recursive descent over the character list, driven by fuel (the nesting depth
of a JSON text is bounded by its length, so `length + 1` fuel always
suffices).  Numbers are kept as their lexeme; strings support the five JSON
escape groups, `\uXXXX` included (mapped through `Char.ofNat`, exact for
scalar values). -/

/-- Parsed JSON values.  `num` keeps the numeric lexeme as written. -/
inductive Json where
  | null : Json
  | bool (b : Bool) : Json
  | num (lex : String) : Json
  | str (s : String) : Json
  | arr (elems : List Json) : Json
  | obj (fields : List (String × Json)) : Json

/-- Hex digit value. -/
def hexVal (c : Char) : Option Nat :=
  if isDigit c then some (c.toNat - 48)
  else if 'a' ≤ c && c ≤ 'f' then some (c.toNat - 87)
  else if 'A' ≤ c && c ≤ 'F' then some (c.toNat - 55)
  else none

/-- The single-character JSON escapes. -/
def escChar (c : Char) : Option Char :=
  if c = '"' then some '"'
  else if c = '\\' then some '\\'
  else if c = '/' then some '/'
  else if c = 'b' then some (Char.ofNat 8)
  else if c = 'f' then some (Char.ofNat 12)
  else if c = 'n' then some '\n'
  else if c = 'r' then some '\r'
  else if c = 't' then some '\t'
  else none

/-- Parse the body of a JSON string (the opening quote already consumed);
returns the decoded characters and the input after the closing quote. -/
def parseStringChars : List Char → Option (List Char × List Char)
  | [] => none
  | c :: rest =>
    if c = '"' then some ([], rest)
    else if c = '\\' then
      match rest with
      | [] => none
      | e :: rest2 =>
        match escChar e with
        | some d =>
          match parseStringChars rest2 with
          | some (s, r) => some (d :: s, r)
          | none => none
        | none =>
          if e = 'u' then
            match rest2 with
            | h1 :: h2 :: h3 :: h4 :: rest3 =>
              match hexVal h1, hexVal h2, hexVal h3, hexVal h4 with
              | some a, some b, some c3, some d =>
                match parseStringChars rest3 with
                | some (s, r) =>
                  some (Char.ofNat (((a * 16 + b) * 16 + c3) * 16 + d) :: s, r)
                | none => none
              | _, _, _, _ => none
            | _ => none
          else none
    else if c.toNat < 32 then none
    else
      match parseStringChars rest with
      | some (s, r) => some (c :: s, r)
      | none => none

/-- Parse a JSON number lexeme at the head of `l`: `-? int frac? exp?` with
`int = 0 | [1-9][0-9]*`.  A dangling `.`/`e` is left unconsumed; the caller
then rejects the leftover character exactly where `JSON.parse` throws. -/
def parseNumber (l : List Char) : Option (String × List Char) :=
  let (sign, l1) :=
    match l with
    | '-' :: r => (['-'], r)
    | _ => (([] : List Char), l)
  match l1 with
  | c :: r =>
    if isDigit c then
      let (intRest, r1) :=
        if c = '0' then (([] : List Char), r)
        else (r.takeWhile isDigit, r.dropWhile isDigit)
      let (fracPart, r2) :=
        match r1 with
        | '.' :: r' =>
          let ds := r'.takeWhile isDigit
          if ds = [] then (([] : List Char), r1)
          else ('.' :: ds, r'.dropWhile isDigit)
        | _ => (([] : List Char), r1)
      let (expPart, r3) :=
        match r2 with
        | e :: r' =>
          if e = 'e' ∨ e = 'E' then
            let (es, r'') :=
              match r' with
              | s :: r2' => if s = '+' ∨ s = '-' then ([s], r2') else (([] : List Char), r')
              | [] => (([] : List Char), r')
            let ds := r''.takeWhile isDigit
            if ds = [] then (([] : List Char), r2)
            else (e :: es ++ ds, r''.dropWhile isDigit)
          else (([] : List Char), r2)
        | [] => (([] : List Char), r2)
      some (String.mk (sign ++ c :: intRest ++ fracPart ++ expPart), r3)
    else none
  | [] => none

mutual

/-- Parse one JSON value at the head of `l` (leading whitespace already
consumed). -/
def parseValue : Nat → List Char → Option (Json × List Char)
  | 0, _ => none
  | Nat.succ fuel, l =>
    match l with
    | 'n' :: 'u' :: 'l' :: 'l' :: r => some (Json.null, r)
    | 't' :: 'r' :: 'u' :: 'e' :: r => some (Json.bool true, r)
    | 'f' :: 'a' :: 'l' :: 's' :: 'e' :: r => some (Json.bool false, r)
    | '"' :: r =>
      match parseStringChars r with
      | some (s, r') => some (Json.str (String.mk s), r')
      | none => none
    | '[' :: r =>
      match r.dropWhile isJsonWs with
      | ']' :: r' => some (Json.arr [], r')
      | _ =>
        match parseItems fuel r with
        | some (vs, r') => some (Json.arr vs, r')
        | none => none
    | c :: r =>
      if c = '{' then
        match r.dropWhile isJsonWs with
        | '}' :: r' => some (Json.obj [], r')
        | _ =>
          match parseMembers fuel r with
          | some (fs, r') => some (Json.obj fs, r')
          | none => none
      else
        match parseNumber (c :: r) with
        | some (lex, r') => some (Json.num lex, r')
        | none => none
    | [] => none

/-- Parse `element (',' element)* ']'` where element is `ws value ws`. -/
def parseItems : Nat → List Char → Option (List Json × List Char)
  | 0, _ => none
  | Nat.succ fuel, l =>
    match parseValue fuel (l.dropWhile isJsonWs) with
    | some (v, r) =>
      match r.dropWhile isJsonWs with
      | ',' :: r2 =>
        match parseItems fuel r2 with
        | some (vs, r3) => some (v :: vs, r3)
        | none => none
      | ']' :: r2 => some ([v], r2)
      | _ => none
    | none => none

/-- Parse `member (',' member)* '}'` where member is `ws string ws ':' element`. -/
def parseMembers : Nat → List Char → Option (List (String × Json) × List Char)
  | 0, _ => none
  | Nat.succ fuel, l =>
    match l.dropWhile isJsonWs with
    | '"' :: r =>
      match parseStringChars r with
      | some (k, r1) =>
        match r1.dropWhile isJsonWs with
        | ':' :: r2 =>
          match parseValue fuel (r2.dropWhile isJsonWs) with
          | some (v, r3) =>
            match r3.dropWhile isJsonWs with
            | ',' :: r4 =>
              match parseMembers fuel r4 with
              | some (fs, r5) => some ((String.mk k, v) :: fs, r5)
              | none => none
            | c :: r4 =>
              if c = '}' then some ([(String.mk k, v)], r4) else none
            | [] => none
          | none => none
        | _ => none
      | none => none
    | _ => none

end

/-- `JSON.parse`: whole-text parse, `none` when `JSON.parse` would throw. -/
def jsonParse (s : String) : Option Json :=
  match parseValue (s.data.length + 1) (s.data.dropWhile isJsonWs) with
  | some (v, r) => if r.dropWhile isJsonWs = [] then some v else none
  | none => none

/-! ## The parse block of `/generate-slides` (lines 311‑322)

```js
const jsonMatch = responseText.match(/\[\s*{[\s\S]*}\s*\]/);
slides = jsonMatch ? JSON.parse(jsonMatch[0]) : JSON.parse(responseText);
```
wrapped in `try`/`catch`; a throw from either `JSON.parse` is `none`. -/

/-- The Slide Parser of the handler: extract-then-parse with whole-text
fallback. -/
def parseSlides (raw : String) : Option Json :=
  match jsonMatch raw with
  | some m => jsonParse m
  | none => jsonParse raw

/-- Modelled from the spec's words (claim C1): search `rawText` for "the
first substring matching a JSON-array-of-objects shape (a greedy match from
the first `[` that is **followed eventually** by `{` through the **last**
`]`)".  This is the procedure the claim describes, written independently of
the code's regex so the two can be compared. -/
def specFirstOpenEv : List Char → Option Nat
  | [] => none
  | c :: rest =>
    if c = '[' ∧ rest.contains '{' then some 0
    else (specFirstOpenEv rest).map (· + 1)

/-- Modelled from the spec's words (claim C1): index of the last `]`. -/
def specLastCloseBracket (l : List Char) : Option Nat :=
  (l.foldl (fun (acc : Option Nat × Nat) c =>
      (if c = ']' then some acc.2 else acc.1, acc.2 + 1)) (none, 0)).1

/-- Modelled from the spec's words (claim C1): the substring from the first
`[` eventually followed by `{`, through the last `]`. -/
def specJsonMatch (s : String) : Option String :=
  match specFirstOpenEv s.data with
  | none => none
  | some i =>
    match specLastCloseBracket s.data with
    | some j => if i ≤ j then some (String.mk ((s.data.drop i).take (j + 1 - i))) else none
    | none => none

/-- Modelled from the spec's words (claims C1/C2): parse the described
substring when found, otherwise the whole text. -/
def specParseSlides (raw : String) : Option Json :=
  match specJsonMatch raw with
  | some m => jsonParse m
  | none => jsonParse raw

/-! ## A model of `JSON.stringify`

Used by the handler for the persisted `slides` column
(`slides: JSON.stringify(slides)`).  Numeric lexemes are printed as kept,
which coincides with `JSON.stringify` on the integer literals used here. -/

/-- Escape one character as `JSON.stringify` does inside a string. -/
def jsEscapeChar (c : Char) : List Char :=
  if c = '"' then ['\\', '"']
  else if c = '\\' then ['\\', '\\']
  else if c = Char.ofNat 8 then ['\\', 'b']
  else if c = '\t' then ['\\', 't']
  else if c = '\n' then ['\\', 'n']
  else if c = Char.ofNat 12 then ['\\', 'f']
  else if c = '\r' then ['\\', 'r']
  else if c.toNat < 32 then
    let hex := fun (n : Nat) =>
      if n < 10 then Char.ofNat (48 + n) else Char.ofNat (87 + n)
    ['\\', 'u', '0', '0', hex (c.toNat / 16), hex (c.toNat % 16)]
  else [c]

/-- `JSON.stringify` of a string value, quotes included. -/
def jsQuote (s : String) : String :=
  String.mk ('"' :: s.data.flatMap jsEscapeChar ++ ['"'])

mutual

/-- `JSON.stringify` (no indentation argument, as in the handler). -/
def jsonStringify : Json → String
  | Json.null => "null"
  | Json.bool true => "true"
  | Json.bool false => "false"
  | Json.num lex => lex
  | Json.str s => jsQuote s
  | Json.arr l => "[" ++ String.intercalate "," (stringifyList l) ++ "]"
  | Json.obj fs => "\x7b" ++ String.intercalate "," (stringifyFields fs) ++ "\x7d"

/-- Renderings of the elements of an array. -/
def stringifyList : List Json → List String
  | [] => []
  | j :: t => jsonStringify j :: stringifyList t

/-- Renderings of the members of an object. -/
def stringifyFields : List (String × Json) → List String
  | [] => []
  | (k, v) :: t => (jsQuote k ++ ":" ++ jsonStringify v) :: stringifyFields t

end

/-! ## JavaScript value helpers used by the handler -/

/-- Truthiness of an optional string request field: absent (`undefined`) and
the empty string are falsy, every other string truthy. -/
def truthy : Option String → Bool
  | none => false
  | some s => s ≠ ""

/-- `x || d` on an optional string field. -/
def orSentinel (x : Option String) (d : String) : String :=
  if truthy x then x.getD "" else d

/-- Last-occurrence property lookup on a parsed JSON object (`JSON.parse`
keeps the last of duplicate keys). -/
def lookupProp (fs : List (String × Json)) (k : String) : Option Json :=
  fs.foldl (fun acc p => if p.1 = k then some p.2 else acc) none

/-- Outcome of evaluating `value.length` on a parsed JSON value: a
`TypeError` on `null`, `undefined` on numbers, booleans and objects without
a `length` member, and a number for arrays and strings. -/
inductive LenResult where
  | thrown : LenResult
  | undef : LenResult
  | val (j : Json) : LenResult

/-- `slides.length` of the handler, per JavaScript member-access semantics. -/
def jsLength : Json → LenResult
  | Json.null => LenResult.thrown
  | Json.str s => LenResult.val (Json.num (toString s.data.length))
  | Json.arr l => LenResult.val (Json.num (toString l.length))
  | Json.obj fs =>
    match lookupProp fs "length" with
    | some v => LenResult.val v
    | none => LenResult.undef
  | Json.bool _ => LenResult.undef
  | Json.num _ => LenResult.undef

/-- An `undefined`-or-value slot, as ends up in the record and the response
(`undefined` members disappear from the serialised JSON). -/
def LenResult.toSlot : LenResult → Option Json
  | LenResult.thrown => none
  | LenResult.undef => none
  | LenResult.val j => some j

/-! ## Data model (the three Weaviate classes, fields the handler touches) -/

/-- A stored RFPDocument (fields fetched by the handler: content, filename). -/
structure RFPDocument where
  content : String
  filename : String

/-- A stored BrandGuide (fields fetched by the handler). -/
structure BrandGuide where
  brandName : String
  colorPalette : String
  typography : String
  voiceTone : String
  content : String
  filename : String

/-- A persisted SlideGeneration record, as written by lines 325‑335.
`slideCount` is `none` when the JavaScript value was `undefined`. -/
structure SlideGenRecord where
  rfpFilename : String
  brandGuideFilename : String
  slideCount : Option Json
  slides : String
  generatedDate : String
  status : String

/-- The store's three collections. -/
structure Store where
  rfpDocs : List RFPDocument
  brandGuides : List BrandGuide
  slideGens : List SlideGenRecord

/-- The body of a `/generate-slides` request (absent members are `none`). -/
structure GenRequest where
  rfpFilename : Option String
  brandGuideFilename : Option String
  slideCount : Option Nat

/-- The success payload of the route (lines 339‑348). -/
structure SuccessData where
  rfpFilename : String
  brandGuideFilename : String
  slideCount : Option Json
  slides : Json
  generatedAt : String

/-- The possible responses of the route. -/
inductive GenResponse where
  | badRequest (msg : String) : GenResponse
  | notFound (msg : String) : GenResponse
  | parseFailure : GenResponse
  | serverError : GenResponse
  | success (d : SuccessData) : GenResponse

/-- HTTP status of each response. -/
def httpStatus : GenResponse → Nat
  | GenResponse.badRequest _ => 400
  | GenResponse.notFound _ => 404
  | GenResponse.parseFailure => 500
  | GenResponse.serverError => 500
  | GenResponse.success _ => 200

/-- The `brandGuideFilename` of a success response, `none` otherwise. -/
def respBrand : GenResponse → Option String
  | GenResponse.success d => some d.brandGuideFilename
  | _ => none

/-! ## Prompt construction (lines 269‑305) -/

/-- The conditional brand block of the system prompt: the brand fields
verbatim when guidelines were retrieved, the default clause otherwise. -/
def brandSection : Option BrandGuide → String
  | some b =>
    "Brand Guidelines:\n- Brand: " ++ b.brandName ++
    "\n- Voice: " ++ b.voiceTone ++
    "\n- Colors: " ++ b.colorPalette ++
    "\n- Typography: " ++ b.typography
  | none => "Use professional corporate styling."

/-- Opening sentence of the system prompt template. -/
def promptHead : String :=
  "You are an expert presentation designer for RFP responses.\n\n"

/-- The fixed requirements and output-contract text closing the template. -/
def promptTail : String :=
  "\n\nRequirements:\n1. Start with a compelling title slide\n2. Include executive summary\n3. Address key RFP requirements\n4. Use clear hierarchy (headings, subheadings)\n5. Mix content types: bullets for lists, text for narrative, charts for data\n6. Keep slides concise and impactful\n7. Add CONFIDENTIAL disclaimer on first slide\n8. Maintain brand voice throughout\n\nReturn ONLY a valid JSON array:\n[\n  \x7b\n    \"slideNumber\": 1,\n    \"title\": \"Slide Title\",\n    \"contentType\": \"bullets|text|chart\",\n    \"content\": [\"Point 1\", \"Point 2\"] or \"Text\" or \x7b\"chartType\": \"bar\", \"data\": [...]\x7d,\n    \"layout\": \"title|bullets|twoColumn|chart\",\n    \"notes\": \"Presenter notes\"\n  \x7d\n]"

/-- The system message of the generation call. -/
def systemPrompt (slideCount : Nat) (bg : Option BrandGuide) : String :=
  promptHead ++
  ("Create " ++ toString slideCount ++ " professional slides") ++
  " from the RFP content provided.\n\n" ++
  brandSection bg ++ promptTail

/-- The user message of the generation call. -/
def userPrompt (rfpContent : String) (slideCount : Nat) : String :=
  "RFP Content:\n" ++ rfpContent ++ "\n\nGenerate " ++ toString slideCount ++
  " slides. Return ONLY valid JSON."

/-! ## The `/generate-slides` handler (lines 215‑358)

`llm` abstracts the chat-completion call as a function of the two messages;
`nowGen` and `nowResp` are the two `new Date().toISOString()` evaluations
(record write and response).  Store writes are modelled as succeeding. -/

/-- The route handler: response together with the store after the request. -/
def generateSlides (st : Store) (req : GenRequest)
    (llm : String → String → String) (nowGen nowResp : String) :
    GenResponse × Store :=
  if truthy req.rfpFilename = false then
    (GenResponse.badRequest "RFP filename is required", st)
  else
    let f := req.rfpFilename.getD ""
    match st.rfpDocs.find? (fun d => d.filename = f) with
    | none =>
      (GenResponse.notFound "RFP document not found. Please upload it first.", st)
    | some rfpDoc =>
      let bg :=
        if truthy req.brandGuideFilename then
          st.brandGuides.find? (fun b => b.filename = req.brandGuideFilename.getD "")
        else none
      let n := req.slideCount.getD 5
      let raw := llm (systemPrompt n bg) (userPrompt rfpDoc.content n)
      match parseSlides raw with
      | none => (GenResponse.parseFailure, st)
      | some slides =>
        match jsLength slides with
        | LenResult.thrown => (GenResponse.serverError, st)
        | len =>
          let record :=
            { rfpFilename := f
              brandGuideFilename := orSentinel req.brandGuideFilename "None"
              slideCount := len.toSlot
              slides := jsonStringify slides
              generatedDate := nowGen
              status := "completed" : SlideGenRecord }
          (GenResponse.success
            { rfpFilename := f
              brandGuideFilename := orSentinel req.brandGuideFilename "Default"
              slideCount := len.toSlot
              slides := slides
              generatedAt := nowResp },
           { st with slideGens := st.slideGens ++ [record] })

/-! ## Substring occurrence -/

/-- `needle` occurs contiguously inside `hay`. -/
def strContains (hay needle : String) : Bool :=
  (List.range (hay.data.length + 1)).any fun i =>
    decide ((hay.data.drop i).take needle.data.length = needle.data)

/-! ## Concrete fixtures used by witnesses and counterexamples -/

/-- A stored RFP document. -/
def rfpDocA : RFPDocument := { content := "RFP body", filename := "specs.pdf" }

/-- A stored brand guide. -/
def brandGuideA : BrandGuide :=
  { brandName := "Acme", colorPalette := "To be extracted", typography := "Standard"
    voiceTone := "Professional", content := "guide body", filename := "acme.pdf" }

/-- A store holding one RFP document and one brand guide, no history. -/
def storeA : Store :=
  { rfpDocs := [rfpDocA], brandGuides := [brandGuideA], slideGens := [] }

/-- A request naming the stored RFP, no brand guide, no requested count. -/
def reqPlain : GenRequest :=
  { rfpFilename := some "specs.pdf", brandGuideFilename := none, slideCount := none }

/-- A request whose brand guide filename matches nothing in the store. -/
def reqGhostBrand : GenRequest :=
  { rfpFilename := some "specs.pdf", brandGuideFilename := some "ghost.pdf"
    slideCount := some 3 }

/-- A model reply that is a clean JSON array of one slide object. -/
def cleanRaw : String := "[\x7b\"slideNumber\":1,\"title\":\"T\"\x7d]"

/-- The one slide object of `cleanRaw`. -/
def cleanSlide : Json :=
  Json.obj [("slideNumber", Json.num "1"), ("title", Json.str "T")]

/-- The parse of `cleanRaw`. -/
def cleanArr : Json := Json.arr [cleanSlide]

/-- A model reply that is plain prose with no JSON array. -/
def proseRaw : String := "I am sorry, here are your slides."

/-- A model reply that parses to a JSON object, not an array. -/
def objRaw : String := "\x7b\"ok\":true\x7d"

/-- A model reply with a bracketed reference in the prose before the array:
the first `[` of the text is not the start of the JSON array. -/
def refRaw : String := "See [1] below.\n[\x7b\"a\":1\x7d]"

/-- An oracle that always replies with the given text. -/
def llmConst (raw : String) : String → String → String := fun _ _ => raw

/-- The run of the handler on the plain request with the clean reply. -/
def runClean : GenResponse × Store :=
  generateSlides storeA reqPlain (llmConst cleanRaw) "t1" "t2"

/-- The run of the handler on the plain request with the object reply. -/
def runObj : GenResponse × Store :=
  generateSlides storeA reqPlain (llmConst objRaw) "t1" "t2"

/-- The first slide-generation record of a run (a placeholder record when
none was written). -/
def firstRecord (out : GenResponse × Store) : SlideGenRecord :=
  out.2.slideGens.headD
    { rfpFilename := "", brandGuideFilename := "", slideCount := none
      slides := "", generatedDate := "", status := "" }

/-! # Theorems -/

/-- A string contains any middle factor of a decomposition of its
characters. -/
lemma strContains_mid (hay needle : String) (pre suf : List Char)
    (h : hay.data = pre ++ needle.data ++ suf) : strContains hay needle = true := by
  unfold strContains
  rw [List.any_eq_true]
  refine ⟨pre.length, List.mem_range.mpr ?_, ?_⟩
  · have hlen : hay.data.length = pre.length + needle.data.length + suf.length := by
      rw [h, List.length_append, List.length_append]
    omega
  · rw [h, List.append_assoc, List.drop_left, List.take_left]
    simp

/-- Every request leaves the store's RFP and brand-guide collections alone
and either succeeds, appending exactly one completed record, or fails with a
non-200 status leaving the store untouched. -/
lemma genShape (st : Store) (req : GenRequest) (llm : String → String → String)
    (n1 n2 : String) :
    (∃ d r, generateSlides st req llm n1 n2 =
        (GenResponse.success d, { st with slideGens := st.slideGens ++ [r] }) ∧
        r.status = "completed" ∧ r.slides = jsonStringify d.slides ∧
        r.slideCount = d.slideCount ∧ r.rfpFilename = d.rfpFilename) ∨
    ((generateSlides st req llm n1 n2).2 = st ∧
      httpStatus (generateSlides st req llm n1 n2).1 ≠ 200) := by
  cases h1 : truthy req.rfpFilename with
  | false => right; constructor <;> simp [generateSlides, h1, httpStatus]
  | true =>
    cases h2 : st.rfpDocs.find? (fun d => d.filename = req.rfpFilename.getD "") with
    | none => right; constructor <;> simp [generateSlides, h1, h2, httpStatus]
    | some doc =>
      cases h3 : parseSlides (llm
          (systemPrompt (req.slideCount.getD 5)
            (if truthy req.brandGuideFilename then
              st.brandGuides.find? (fun b => b.filename = req.brandGuideFilename.getD "")
            else none))
          (userPrompt doc.content (req.slideCount.getD 5))) with
      | none => right; constructor <;> simp [generateSlides, h1, h2, h3, httpStatus]
      | some slides =>
        cases h4 : jsLength slides with
        | thrown => right; constructor <;> simp [generateSlides, h1, h2, h3, h4, httpStatus]
        | undef =>
          left
          simp only [generateSlides, h1, h2, h3, h4]
          exact ⟨_, _, rfl, rfl, rfl, rfl, rfl⟩
        | val j =>
          left
          simp only [generateSlides, h1, h2, h3, h4]
          exact ⟨_, _, rfl, rfl, rfl, rfl, rfl⟩

/-- C3: when the parse block fails the handler answers 500 and writes no
SlideGeneration record, and in general a request is atomic: it either fully
succeeds — a success response whose slides payload is recorded (serialised)
in exactly one appended completed record — or fully fails, leaving the store
exactly as it was with a non-200 response. -/
theorem generation_is_atomic (st : Store) (req : GenRequest)
    (llm : String → String → String) (n1 n2 : String) :
    ((∃ d r, generateSlides st req llm n1 n2 =
        (GenResponse.success d, { st with slideGens := st.slideGens ++ [r] }) ∧
        r.status = "completed" ∧ r.slides = jsonStringify d.slides) ∨
      ((generateSlides st req llm n1 n2).2 = st ∧
        httpStatus (generateSlides st req llm n1 n2).1 ≠ 200)) ∧
    (∀ doc, truthy req.rfpFilename = true →
      st.rfpDocs.find? (fun d => d.filename = req.rfpFilename.getD "") = some doc →
      parseSlides (llm
        (systemPrompt (req.slideCount.getD 5)
          (if truthy req.brandGuideFilename then
            st.brandGuides.find? (fun b => b.filename = req.brandGuideFilename.getD "")
          else none))
        (userPrompt doc.content (req.slideCount.getD 5))) = none →
      generateSlides st req llm n1 n2 = (GenResponse.parseFailure, st) ∧
      httpStatus (generateSlides st req llm n1 n2).1 = 500) := by
  constructor
  · rcases genShape st req llm n1 n2 with ⟨d, r, heq, hst, hsl, _⟩ | hfail
    · exact Or.inl ⟨d, r, heq, hst, hsl⟩
    · exact Or.inr hfail
  · intro doc h1 h2 h3
    constructor <;> simp [generateSlides, h1, h2, h3, httpStatus]

/-- Closed instance of C3's theorem: a prose reply fails the parse block,
the response is the 500 parse-failure answer and the store is unchanged. -/
theorem generation_is_atomic_witness :
    generateSlides storeA reqPlain (llmConst proseRaw) "t1" "t2" =
      (GenResponse.parseFailure, storeA) :=
  ((generation_is_atomic storeA reqPlain (llmConst proseRaw) "t1" "t2").2
    rfpDocA rfl rfl rfl).1

/-- C4: a request whose (non-empty) rfpFilename matches no stored
RFPDocument gets the 404 not-found answer and the store is unchanged, so no
SlideGeneration record is written. -/
theorem missing_rfp_404 (st : Store) (req : GenRequest)
    (llm : String → String → String) (n1 n2 : String) (f : String)
    (h1 : req.rfpFilename = some f) (h2 : f ≠ "")
    (h3 : st.rfpDocs.find? (fun d => d.filename = f) = none) :
    generateSlides st req llm n1 n2 =
      (GenResponse.notFound "RFP document not found. Please upload it first.", st) ∧
    httpStatus (generateSlides st req llm n1 n2).1 = 404 := by
  constructor <;> simp [generateSlides, truthy, h1, h2, h3, httpStatus]

/-- Closed instance of C4's theorem at a concrete store and request. -/
theorem missing_rfp_404_witness :
    generateSlides storeA
        { rfpFilename := some "ghost.pdf", brandGuideFilename := none, slideCount := none }
        (llmConst cleanRaw) "t1" "t2" =
      (GenResponse.notFound "RFP document not found. Please upload it first.", storeA) :=
  (missing_rfp_404 storeA
    { rfpFilename := some "ghost.pdf", brandGuideFilename := none, slideCount := none }
    (llmConst cleanRaw) "t1" "t2" "ghost.pdf" rfl (by decide) rfl).1

/-- C5: on every successful generation the response's slideCount and the
persisted record's slideCount both equal the length of the parsed slides
array — whatever `req.slideCount` asked for (the requested count is left
completely unconstrained here). -/
theorem authoritative_count (st : Store) (req : GenRequest)
    (llm : String → String → String) (n1 n2 : String) (doc : RFPDocument)
    (l : List Json)
    (h1 : truthy req.rfpFilename = true)
    (h2 : st.rfpDocs.find? (fun d => d.filename = req.rfpFilename.getD "") = some doc)
    (h3 : parseSlides (llm
        (systemPrompt (req.slideCount.getD 5)
          (if truthy req.brandGuideFilename then
            st.brandGuides.find? (fun b => b.filename = req.brandGuideFilename.getD "")
          else none))
        (userPrompt doc.content (req.slideCount.getD 5))) = some (Json.arr l)) :
    ∃ d r, (generateSlides st req llm n1 n2).1 = GenResponse.success d ∧
      d.slideCount = some (Json.num (toString l.length)) ∧
      d.slides = Json.arr l ∧
      (generateSlides st req llm n1 n2).2.slideGens = st.slideGens ++ [r] ∧
      r.slideCount = some (Json.num (toString l.length)) := by
  simp [generateSlides, h1, h2, h3, jsLength, LenResult.toSlot]

/-- Closed instance of C5's theorem: the clean one-slide reply yields
slideCount 1 in the response and in the record, with `slideCount` absent
from the request. -/
theorem authoritative_count_witness :
    ∃ d r, runClean.1 = GenResponse.success d ∧
      d.slideCount = some (Json.num "1") ∧
      d.slides = Json.arr [cleanSlide] ∧
      runClean.2.slideGens = storeA.slideGens ++ [r] ∧
      r.slideCount = some (Json.num "1") :=
  authoritative_count storeA reqPlain (llmConst cleanRaw) "t1" "t2" rfpDocA
    [cleanSlide] rfl rfl rfl

/-- C7: a request naming a brand guide that matches nothing in the store is
not rejected: the pipeline runs with no brand guidance — the model is
consulted with the brand-free prompt — and the request succeeds (200, not
404). -/
theorem ghost_brand_still_succeeds (st : Store) (req : GenRequest)
    (llm : String → String → String) (n1 n2 : String) (doc : RFPDocument)
    (l : List Json)
    (h1 : truthy req.rfpFilename = true)
    (h2 : st.rfpDocs.find? (fun d => d.filename = req.rfpFilename.getD "") = some doc)
    (h3 : truthy req.brandGuideFilename = true)
    (h4 : st.brandGuides.find? (fun b => b.filename = req.brandGuideFilename.getD "") = none)
    (h5 : parseSlides (llm (systemPrompt (req.slideCount.getD 5) none)
        (userPrompt doc.content (req.slideCount.getD 5))) = some (Json.arr l)) :
    ∃ d, (generateSlides st req llm n1 n2).1 = GenResponse.success d ∧
      d.slides = Json.arr l ∧
      httpStatus (generateSlides st req llm n1 n2).1 = 200 ∧
      httpStatus (generateSlides st req llm n1 n2).1 ≠ 404 := by
  simp [generateSlides, h1, h2, h3, h4, h5, jsLength, httpStatus]

/-- Closed instance of C7's theorem: requesting the absent brand guide
"ghost.pdf" still yields a success response. -/
theorem ghost_brand_still_succeeds_witness :
    ∃ d, (generateSlides storeA reqGhostBrand (llmConst cleanRaw) "t1" "t2").1 =
        GenResponse.success d ∧
      d.slides = Json.arr [cleanSlide] ∧
      httpStatus (generateSlides storeA reqGhostBrand (llmConst cleanRaw) "t1" "t2").1 = 200 ∧
      httpStatus (generateSlides storeA reqGhostBrand (llmConst cleanRaw) "t1" "t2").1 ≠ 404 :=
  ghost_brand_still_succeeds storeA reqGhostBrand (llmConst cleanRaw) "t1" "t2"
    rfpDocA [cleanSlide] rfl rfl rfl rfl rfl

/-- C8: the built system prompt asks for exactly the requested number of
slides ("Create N professional slides"), embeds the four brand fields
verbatim when a brand guide is present, and otherwise carries the
"Use professional corporate styling." default clause. -/
theorem prompt_embeds_count_and_brand (n : Nat) (bg : Option BrandGuide) :
    strContains (systemPrompt n bg)
      ("Create " ++ toString n ++ " professional slides") = true ∧
    (∀ b, bg = some b →
      strContains (systemPrompt n bg) b.brandName = true ∧
      strContains (systemPrompt n bg) b.voiceTone = true ∧
      strContains (systemPrompt n bg) b.colorPalette = true ∧
      strContains (systemPrompt n bg) b.typography = true) ∧
    (bg = none →
      strContains (systemPrompt n bg) "Use professional corporate styling." = true) := by
  refine ⟨?_, ?_, ?_⟩
  · exact strContains_mid _ _ promptHead.data
      ((" from the RFP content provided.\n\n" ++ brandSection bg ++ promptTail).data)
      (by simp [systemPrompt, String.data_append])
  · rintro b rfl
    refine ⟨?_, ?_, ?_, ?_⟩
    · exact strContains_mid _ _
        ((promptHead ++ ("Create " ++ toString n ++ " professional slides") ++
          " from the RFP content provided.\n\n" ++ "Brand Guidelines:\n- Brand: ").data)
        (("\n- Voice: " ++ b.voiceTone ++ "\n- Colors: " ++ b.colorPalette ++
          "\n- Typography: " ++ b.typography ++ promptTail).data)
        (by simp [systemPrompt, brandSection, String.data_append])
    · exact strContains_mid _ _
        ((promptHead ++ ("Create " ++ toString n ++ " professional slides") ++
          " from the RFP content provided.\n\n" ++ "Brand Guidelines:\n- Brand: " ++
          b.brandName ++ "\n- Voice: ").data)
        (("\n- Colors: " ++ b.colorPalette ++ "\n- Typography: " ++ b.typography ++
          promptTail).data)
        (by simp [systemPrompt, brandSection, String.data_append])
    · exact strContains_mid _ _
        ((promptHead ++ ("Create " ++ toString n ++ " professional slides") ++
          " from the RFP content provided.\n\n" ++ "Brand Guidelines:\n- Brand: " ++
          b.brandName ++ "\n- Voice: " ++ b.voiceTone ++ "\n- Colors: ").data)
        (("\n- Typography: " ++ b.typography ++ promptTail).data)
        (by simp [systemPrompt, brandSection, String.data_append])
    · exact strContains_mid _ _
        ((promptHead ++ ("Create " ++ toString n ++ " professional slides") ++
          " from the RFP content provided.\n\n" ++ "Brand Guidelines:\n- Brand: " ++
          b.brandName ++ "\n- Voice: " ++ b.voiceTone ++ "\n- Colors: " ++
          b.colorPalette ++ "\n- Typography: ").data)
        (promptTail.data)
        (by simp [systemPrompt, brandSection, String.data_append])
  · rintro rfl
    exact strContains_mid _ _
      ((promptHead ++ ("Create " ++ toString n ++ " professional slides") ++
        " from the RFP content provided.\n\n").data)
      (promptTail.data)
      (by simp [systemPrompt, brandSection, String.data_append])

/-- Closed instance of C8's theorem: the brand-free prompt for five slides
contains the request sentence and the default styling clause. -/
theorem prompt_embeds_count_and_brand_witness :
    strContains (systemPrompt 5 none) "Use professional corporate styling." = true :=
  (prompt_embeds_count_and_brand 5 none).2.2 rfl

/-- C9 (amended): when the caller supplies no (truthy) brandGuideFilename, a
successful generation answers with the sentinel "Default" in the response
while the persisted record stores the different sentinel "None". -/
theorem default_sentinels (st : Store) (req : GenRequest)
    (llm : String → String → String) (n1 n2 : String) (doc : RFPDocument)
    (l : List Json)
    (h1 : truthy req.rfpFilename = true)
    (h2 : st.rfpDocs.find? (fun d => d.filename = req.rfpFilename.getD "") = some doc)
    (h3 : truthy req.brandGuideFilename = false)
    (h4 : parseSlides (llm (systemPrompt (req.slideCount.getD 5) none)
        (userPrompt doc.content (req.slideCount.getD 5))) = some (Json.arr l)) :
    ∃ d r, (generateSlides st req llm n1 n2).1 = GenResponse.success d ∧
      d.brandGuideFilename = "Default" ∧
      (generateSlides st req llm n1 n2).2.slideGens = st.slideGens ++ [r] ∧
      r.brandGuideFilename = "None" := by
  simp [generateSlides, h1, h2, h3, h4, jsLength, orSentinel]

/-- C9 counterexample: on a concrete brand-less successful generation the
response carries "Default" while the written record carries "None" — the
record does not hold the same sentinel as the response. -/
theorem default_sentinels_differ :
    respBrand runClean.1 = some "Default" ∧
    runClean.2.slideGens.map (fun r => r.brandGuideFilename) = ["None"] ∧
    ("None" : String) ≠ "Default" :=
  ⟨rfl, rfl, by decide⟩

/-- Closed instance of C9's amended theorem at the concrete brand-less run. -/
theorem default_sentinels_witness :
    ∃ d r, runClean.1 = GenResponse.success d ∧
      d.brandGuideFilename = "Default" ∧
      runClean.2.slideGens = storeA.slideGens ++ [r] ∧
      r.brandGuideFilename = "None" :=
  default_sentinels storeA reqPlain (llmConst cleanRaw) "t1" "t2" rfpDocA
    [cleanSlide] rfl rfl rfl rfl

/-- C10: every SlideGeneration record present after a request was either
already in the store or was written with status "completed"; no code path
writes a record with status "failed". -/
theorem slide_records_completed (st : Store) (req : GenRequest)
    (llm : String → String → String) (n1 n2 : String) (r : SlideGenRecord)
    (h : r ∈ (generateSlides st req llm n1 n2).2.slideGens) :
    r ∈ st.slideGens ∨ r.status = "completed" := by
  rcases genShape st req llm n1 n2 with ⟨d, r0, heq, hst, _⟩ | ⟨heq, _⟩
  · rw [heq] at h
    simp only [List.mem_append, List.mem_singleton] at h
    rcases h with h | h
    · exact Or.inl h
    · exact Or.inr (h ▸ hst)
  · rw [heq] at h
    exact Or.inl h

/-- Closed instance of C10's theorem: the record written by the concrete
clean run has status "completed". -/
theorem slide_records_completed_witness :
    firstRecord runClean ∈ storeA.slideGens ∨
      (firstRecord runClean).status = "completed" :=
  slide_records_completed storeA reqPlain (llmConst cleanRaw) "t1" "t2"
    (firstRecord runClean)
    (by
      have hres : runClean.2.slideGens = [firstRecord runClean] := rfl
      exact hres ▸ List.mem_singleton_self _)

/-- The `slides.length` access throws precisely on JSON `null`. -/
lemma jsLength_thrown_iff (j : Json) :
    jsLength j = LenResult.thrown ↔ j = Json.null := by
  cases j with
  | obj fs =>
    simp only [jsLength]
    cases h : lookupProp fs "length" <;> simp
  | _ => simp [jsLength]

/-- C2 (amended): the parse block fails exactly when neither the
extracted-substring parse nor the whole-text parse succeeds; on such a
failure — plain prose in particular — the handler answers 500 and writes no
record.  A parsed non-array value is not rejected by the parse block: every
parsed value other than JSON null proceeds to a success response and an
appended record, while JSON null makes the subsequent `slides.length`
access throw, so the handler answers the generic 500 with no record. -/
theorem parse_failure_characterised :
    (∀ raw, parseSlides raw = none ↔
      (jsonMatch raw = none ∧ jsonParse raw = none) ∨
      (∃ m, jsonMatch raw = some m ∧ jsonParse m = none)) ∧
    (∀ st req llm n1 n2 doc, truthy (GenRequest.rfpFilename req) = true →
      st.rfpDocs.find? (fun d => d.filename = req.rfpFilename.getD "") = some doc →
      parseSlides (llm
        (systemPrompt (req.slideCount.getD 5)
          (if truthy req.brandGuideFilename then
            st.brandGuides.find? (fun b => b.filename = req.brandGuideFilename.getD "")
          else none))
        (userPrompt doc.content (req.slideCount.getD 5))) = none →
      generateSlides st req llm n1 n2 = (GenResponse.parseFailure, st)) ∧
    (∀ st req llm n1 n2 doc j, truthy (GenRequest.rfpFilename req) = true →
      st.rfpDocs.find? (fun d => d.filename = req.rfpFilename.getD "") = some doc →
      parseSlides (llm
        (systemPrompt (req.slideCount.getD 5)
          (if truthy req.brandGuideFilename then
            st.brandGuides.find? (fun b => b.filename = req.brandGuideFilename.getD "")
          else none))
        (userPrompt doc.content (req.slideCount.getD 5))) = some j →
      j ≠ Json.null →
      ∃ d r, (generateSlides st req llm n1 n2).1 = GenResponse.success d ∧
        d.slides = j ∧
        httpStatus (generateSlides st req llm n1 n2).1 = 200 ∧
        (generateSlides st req llm n1 n2).2.slideGens = st.slideGens ++ [r]) ∧
    (∀ st req llm n1 n2 doc, truthy (GenRequest.rfpFilename req) = true →
      st.rfpDocs.find? (fun d => d.filename = req.rfpFilename.getD "") = some doc →
      parseSlides (llm
        (systemPrompt (req.slideCount.getD 5)
          (if truthy req.brandGuideFilename then
            st.brandGuides.find? (fun b => b.filename = req.brandGuideFilename.getD "")
          else none))
        (userPrompt doc.content (req.slideCount.getD 5))) = some Json.null →
      generateSlides st req llm n1 n2 = (GenResponse.serverError, st)) := by
  refine ⟨?_, ?_, ?_, ?_⟩
  · intro raw
    unfold parseSlides
    cases h : jsonMatch raw with
    | none => simp
    | some m => simp
  · intro st req llm n1 n2 doc h1 h2 h3
    simp [generateSlides, h1, h2, h3]
  · intro st req llm n1 n2 doc j h1 h2 h3 h4
    cases h5 : jsLength j with
    | thrown => exact absurd ((jsLength_thrown_iff j).mp h5) h4
    | undef => simp [generateSlides, h1, h2, h3, h5, httpStatus]
    | val v => simp [generateSlides, h1, h2, h3, h5, httpStatus]
  · intro st req llm n1 n2 doc h1 h2 h3
    simp [generateSlides, h1, h2, h3, jsLength]

/-- Closed instance of C2's amended theorem: the concrete object reply is
accepted, yielding a 200 success response and one appended record. -/
theorem parse_failure_characterised_witness :
    ∃ d r, runObj.1 = GenResponse.success d ∧
      d.slides = Json.obj [("ok", Json.bool true)] ∧
      httpStatus runObj.1 = 200 ∧
      runObj.2.slideGens = storeA.slideGens ++ [r] :=
  parse_failure_characterised.2.2.1 storeA reqPlain (llmConst objRaw) "t1" "t2"
    rfpDocA (Json.obj [("ok", Json.bool true)]) rfl rfl rfl
    (fun h => Json.noConfusion h)

/-- C2 counterexample: raw output that parses to a JSON **object** (not an
array) does not fail generation — the handler answers 200 and a record is
written, contradicting "fails ... if the value that does parse is not an
array ... and no record is written". -/
theorem nonarray_accepted :
    parseSlides objRaw = some (Json.obj [("ok", Json.bool true)]) ∧
    httpStatus runObj.1 = 200 ∧
    runObj.2.slideGens.length = 1 :=
  ⟨rfl, rfl, rfl⟩

/-! ## The extraction regex: characterisation lemmas -/

lemma closeLen_cons_ne (c : Char) (l : List Char) (h : c ≠ '}') :
    closeLen (c :: l) = none := by
  unfold closeLen
  split
  · rename_i heq
    exact absurd (List.cons.injEq .. ▸ congrArg id heq) (by simp [h])
  · rfl

lemma ws_ne_closeBrace (c : Char) (h : isWs c = true) : c ≠ '}' := by
  intro hc; subst hc; simp [isWs] at h

lemma ws_ne_openBrace (c : Char) (h : isWs c = true) : c ≠ '{' := by
  intro hc; subst hc; simp [isWs] at h

lemma dropWhile_append_ws (w : List Char) (l : List Char) (c : Char)
    (hw : ∀ x ∈ w, isWs x = true) (hc : isWs c = false) :
    (w ++ c :: l).dropWhile isWs = c :: l := by
  induction w with
  | nil => simp [List.dropWhile_cons, hc]
  | cons x w ih =>
    simp only [List.cons_append, List.dropWhile_cons, hw x (List.mem_cons_self x w)]
    exact ih (fun y hy => hw y (List.mem_cons_of_mem x hy))

lemma takeWhile_append_ws (w : List Char) (l : List Char) (c : Char)
    (hw : ∀ x ∈ w, isWs x = true) (hc : isWs c = false) :
    (w ++ c :: l).takeWhile isWs = w := by
  induction w with
  | nil => simp [List.takeWhile_cons, hc]
  | cons x w ih =>
    simp only [List.cons_append, List.takeWhile_cons, hw x (List.mem_cons_self x w)]
    simp [ih (fun y hy => hw y (List.mem_cons_of_mem x hy))]

lemma lastCloseAux_isSome (l : List Char) :
    (lastCloseAux l).isSome = hasCloseB l := by
  induction l with
  | nil => rfl
  | cons c rest ih =>
    simp only [lastCloseAux, hasCloseB]
    cases h : lastCloseAux rest with
    | some p =>
      rw [h] at ih
      simp [← ih]
    | none =>
      rw [h] at ih
      cases hc : closeLen (c :: rest) <;> simp [← ih, hc]

lemma lastCloseAux_of_hasCloseB_false (l : List Char) (h : hasCloseB l = false) :
    lastCloseAux l = none := by
  have := lastCloseAux_isSome l
  rw [h] at this
  cases hl : lastCloseAux l with
  | none => rfl
  | some p => rw [hl] at this; simp at this

lemma closeLen_shape (l : List Char) (m : Nat) (h : closeLen l = some m) :
    ∃ w v, l = '}' :: (w ++ ']' :: v) ∧ (∀ x ∈ w, isWs x = true) ∧
      m = w.length + 2 ∧ l.take m = '}' :: (w ++ [']']) ∧ l.drop m = v := by
  cases l with
  | nil => simp [closeLen] at h
  | cons c rest =>
    by_cases hc : c = '}'
    · subst hc
      simp only [closeLen] at h
      cases hd : rest.dropWhile isWs with
      | nil => rw [hd] at h; simp at h
      | cons c2 v =>
        by_cases hc2 : c2 = ']'
        · subst hc2
          rw [hd] at h
          simp only [Option.some.injEq] at h
          set w := rest.takeWhile isWs with hwdef
          have hsplit : rest = w ++ ']' :: v := by
            conv_lhs => rw [← List.takeWhile_append_dropWhile (p := isWs) (l := rest)]
            rw [hd]
          refine ⟨w, v, by rw [hsplit], ?_, h.symm, ?_, ?_⟩
          · intro x hx
            exact List.mem_takeWhile_imp (hwdef ▸ hx)
          · rw [← h]
            show List.take (w.length + 2) ('}' :: rest) = _
            rw [show w.length + 2 = (w.length + 1) + 1 by omega, List.take_succ_cons]
            rw [hsplit, List.take_append]
            simp
          · rw [← h]
            show List.drop (w.length + 2) ('}' :: rest) = _
            rw [show w.length + 2 = (w.length + 1) + 1 by omega, List.drop_succ_cons]
            rw [hsplit, List.drop_append]
            simp
        · rw [hd] at h
          simp [hc2] at h
    · rw [closeLen_cons_ne c rest hc] at h
      exact absurd h (by simp)

lemma closeLen_none_of_lastCloseAux_none (l : List Char)
    (h : lastCloseAux l = none) : ∀ j, closeLen (l.drop j) = none := by
  induction l with
  | nil => intro j; simp [closeLen]
  | cons c rest ih =>
    intro j
    simp only [lastCloseAux] at h
    cases hr : lastCloseAux rest with
    | some p => rw [hr] at h; simp at h
    | none =>
      rw [hr] at h
      cases j with
      | zero =>
        simp only [List.drop_zero]
        cases hcl : closeLen (c :: rest) with
        | none => rfl
        | some m => rw [hcl] at h; simp at h
      | succ j => exact ih hr j

lemma closeLen_le (l : List Char) (m : Nat) (h : closeLen l = some m) :
    m ≤ l.length := by
  obtain ⟨w, v, hl, _, hm, _, _⟩ := closeLen_shape l m h
  rw [hl]
  simp [hm, List.length_append]

lemma lastCloseAux_spec (t : List Char) (k m : Nat)
    (h : lastCloseAux t = some (k, m)) :
    closeLen (t.drop k) = some m ∧ (∀ j, k < j → closeLen (t.drop j) = none) ∧
      k + m ≤ t.length := by
  induction t generalizing k m with
  | nil => simp [lastCloseAux] at h
  | cons c rest ih =>
    simp only [lastCloseAux] at h
    cases hr : lastCloseAux rest with
    | some p =>
      obtain ⟨k0, m0⟩ := p
      rw [hr] at h
      simp only [Option.some.injEq] at h
      injection h with h1 h2
      subst h1
      subst h2
      obtain ⟨hcl0, hnone, hle⟩ := ih k0 m0 hr
      refine ⟨hcl0, ?_, by simp; omega⟩
      intro j hj
      cases j with
      | zero => omega
      | succ j2 => exact hnone j2 (by omega)
    | none =>
      rw [hr] at h
      cases hcl : closeLen (c :: rest) with
      | none => rw [hcl] at h; simp at h
      | some m0 =>
        rw [hcl] at h
        simp only [Option.some.injEq] at h
        injection h with h1 h2
        subst h1
        subst h2
        refine ⟨hcl, ?_, by simpa using closeLen_le _ _ hcl⟩
        intro j hj
        cases j with
        | zero => omega
        | succ j2 => exact closeLen_none_of_lastCloseAux_none rest hr j2

lemma openSplit_cons_ne (c : Char) (l : List Char) (h : c ≠ '[') :
    openSplit (c :: l) = none := by
  unfold openSplit
  split
  · rename_i heq
    injection heq with h1 _
    exact absurd h1 h
  · rfl

lemma openSplit_shape (l w t : List Char) (h : openSplit l = some (w, t)) :
    l = '[' :: (w ++ '{' :: t) ∧ (∀ x ∈ w, isWs x = true) := by
  cases l with
  | nil => simp [openSplit] at h
  | cons c rest =>
    by_cases hc : c = '['
    · subst hc
      simp only [openSplit] at h
      cases hd : rest.dropWhile isWs with
      | nil => rw [hd] at h; simp at h
      | cons c2 t2 =>
        by_cases hc2 : c2 = '{'
        · subst hc2
          rw [hd] at h
          simp only [Option.some.injEq] at h
          injection h with h1 h2
          subst h1
          subst h2
          constructor
          · congr 1
            conv_lhs => rw [← List.takeWhile_append_dropWhile (p := isWs) (l := rest)]
            rw [hd]
          · intro x hx; exact List.mem_takeWhile_imp hx
        · rw [hd] at h; simp [hc2] at h
    · rw [openSplit_cons_ne c rest hc] at h
      exact absurd h (by simp)

lemma tryMatchAt_cons_ne (c : Char) (l : List Char) (h : c ≠ '[') :
    tryMatchAt (c :: l) = none := by
  unfold tryMatchAt
  rw [openSplit_cons_ne c l h]

lemma startsHere_eq (l : List Char) :
    startsHere l = (tryMatchAt l).isSome := by
  unfold startsHere openTail tryMatchAt
  cases ho : openSplit l with
  | none => rfl
  | some p =>
    obtain ⟨w, t⟩ := p
    cases hl : lastCloseAux t with
    | none =>
      have hb : hasCloseB t = false := by rw [← lastCloseAux_isSome, hl]; rfl
      simp [hb, hl]
    | some q =>
      obtain ⟨k, m⟩ := q
      have hb : hasCloseB t = true := by rw [← lastCloseAux_isSome, hl]; rfl
      simp [hb, hl]

lemma hasCloseB_eq_false_of (v : List Char)
    (h : ∀ q, closeLen (v.drop q) = none) : hasCloseB v = false := by
  induction v with
  | nil => rfl
  | cons c rest ih =>
    have h0 := h 0
    simp only [List.drop_zero] at h0
    simp only [hasCloseB, h0, Option.isSome_none, Bool.false_or]
    exact ih (fun q => h (q + 1))

lemma closesArr_append (A w2 : List Char) (hw2 : ∀ x ∈ w2, isWs x = true) :
    closesArr (A ++ '}' :: (w2 ++ [']'])) = true := by
  unfold closesArr
  have h1 : (A ++ '}' :: (w2 ++ [']'])).reverse =
      ']' :: (w2.reverse ++ '}' :: A.reverse) := by
    simp [List.reverse_append, List.reverse_cons]
  rw [h1]
  have h2 : (w2.reverse ++ '}' :: A.reverse).dropWhile isWs = '}' :: A.reverse :=
    dropWhile_append_ws _ _ _ (fun x hx => hw2 x (List.mem_reverse.mp hx)) (by decide)
  simp [h2]

lemma tryMatchAt_spec (l : List Char) (n : Nat) (h : tryMatchAt l = some n) :
    n ≤ l.length ∧ opensArr (l.take n) = true ∧ closesArr (l.take n) = true ∧
      hasCloseB (l.drop n) = false := by
  unfold tryMatchAt at h
  cases ho : openSplit l with
  | none => rw [ho] at h; simp at h
  | some p =>
    obtain ⟨w, t⟩ := p
    rw [ho] at h
    dsimp only at h
    cases hl : lastCloseAux t with
    | none => rw [hl] at h; simp at h
    | some q =>
      obtain ⟨k, m⟩ := q
      rw [hl] at h
      simp only [Option.some.injEq] at h
      subst h
      obtain ⟨hldec, hw⟩ := openSplit_shape l w t ho
      obtain ⟨hcl, hnone, hkm⟩ := lastCloseAux_spec t k m hl
      obtain ⟨w2, v, hshape, hw2, hm, htake, hdrop⟩ := closeLen_shape (t.drop k) m hcl
      have htk : t.take (k + m) = t.take k ++ '}' :: (w2 ++ [']']) := by
        rw [List.take_add, htake]
      have hteq : l.take (2 + w.length + k + m) =
          '[' :: (w ++ '{' :: (t.take k ++ '}' :: (w2 ++ [']']))) := by
        rw [hldec]
        rw [show 2 + w.length + k + m = (w.length + (1 + (k + m))) + 1 by omega]
        rw [List.take_succ_cons]
        congr 1
        rw [List.take_append]
        congr 1
        rw [show 1 + (k + m) = (k + m) + 1 by omega]
        rw [List.take_succ_cons]
        rw [htk]
      have hdeq : l.drop (2 + w.length + k + m) = v := by
        rw [hldec]
        rw [show 2 + w.length + k + m = (w.length + (1 + (k + m))) + 1 by omega]
        rw [List.drop_succ_cons]
        rw [List.drop_append]
        rw [show 1 + (k + m) = (k + m) + 1 by omega]
        rw [List.drop_succ_cons]
        rw [← List.drop_drop, hdrop]
      refine ⟨?_, ?_, ?_, ?_⟩
      · rw [hldec]
        simp [List.length_append]
        omega
      · rw [hteq]
        simp only [opensArr, openTail, openSplit]
        rw [dropWhile_append_ws w _ '{' hw (by decide)]
        simp
      · rw [hteq]
        have : '[' :: (w ++ '{' :: (t.take k ++ '}' :: (w2 ++ [']']))) =
            ('[' :: w ++ '{' :: t.take k) ++ '}' :: (w2 ++ [']']) := by
          simp
        rw [this]
        exact closesArr_append _ _ hw2
      · rw [hdeq]
        apply hasCloseB_eq_false_of
        intro q
        have hv : v = t.drop (k + m) := by
          rw [← hdrop, List.drop_drop]
        rw [hv, List.drop_drop]
        exact hnone (k + m + q) (by omega)

lemma jsonMatchAux_spec (l md : List Char) (h : jsonMatchAux l = some md) :
    ∃ i, i ≤ l.length ∧ (∀ j, j < i → tryMatchAt (l.drop j) = none) ∧
      tryMatchAt (l.drop i) = some md.length ∧ md = (l.drop i).take md.length := by
  induction l with
  | nil => simp [jsonMatchAux] at h
  | cons c rest ih =>
    simp only [jsonMatchAux] at h
    cases ht : tryMatchAt (c :: rest) with
    | some n =>
      rw [ht] at h
      simp only [Option.some.injEq] at h
      subst h
      have hlen : ((c :: rest).take n).length = n := by
        have hle := (tryMatchAt_spec (c :: rest) n ht).1
        rw [List.length_take]
        omega
      refine ⟨0, by omega, by omega, ?_, ?_⟩
      · rw [List.drop_zero, hlen, ht]
      · rw [List.drop_zero, hlen]
    | none =>
      rw [ht] at h
      obtain ⟨i, hile, hnone, hsome, heq⟩ := ih h
      refine ⟨i + 1, by simp; omega, ?_, ?_, ?_⟩
      · intro j hj
        cases j with
        | zero => exact ht
        | succ j2 => exact hnone j2 (by omega)
      · rw [List.drop_succ_cons]; exact hsome
      · rw [List.drop_succ_cons]; exact heq

/-- C1 (amended): when the regex finds no match the parse block parses the
whole raw text; when it finds a match `m`, the block parses exactly `m`, and
`m` is a factor of the raw text that starts with `[`‑whitespace‑`{`, ends
with `}`‑whitespace‑`]`, starts at the first position from which such a
match is possible (every earlier position fails the opening shape or has no
closing shape after it), and extends greedily (no closing shape occurs after
it).  The claim's "first `[` that is followed eventually by `{`" start rule
is what the counterexample refutes. -/
theorem regex_extraction_rule (raw : String) :
    (jsonMatch raw = none → parseSlides raw = jsonParse raw) ∧
    (∀ m, jsonMatch raw = some m →
      parseSlides raw = jsonParse m ∧
      opensArr m.data = true ∧
      closesArr m.data = true ∧
      ∃ pre post : List Char,
        raw.data = pre ++ m.data ++ post ∧
        (∀ j, j < pre.length → startsHere (raw.data.drop j) = false) ∧
        hasCloseB post = false) := by
  constructor
  · intro h; unfold parseSlides; rw [h]
  · intro m hm
    have hm' : jsonMatchAux raw.data = some m.data := by
      unfold jsonMatch at hm
      cases hx : jsonMatchAux raw.data with
      | none => rw [hx] at hm; simp at hm
      | some md =>
        rw [hx] at hm
        dsimp only [Option.map] at hm
        injection hm with h2
        rw [← h2]
    obtain ⟨i, hile, hnone, hsome, heq⟩ := jsonMatchAux_spec raw.data m.data hm'
    obtain ⟨hle, hopen, hclose, hpost⟩ :=
      tryMatchAt_spec (raw.data.drop i) m.data.length hsome
    rw [← heq] at hopen hclose
    refine ⟨?_, hopen, hclose,
      raw.data.take i, (raw.data.drop i).drop m.data.length, ?_, ?_, hpost⟩
    · unfold parseSlides; rw [hm]
    · conv_lhs => rw [← List.take_append_drop i raw.data]
      rw [List.append_assoc]
      congr 1
      conv_lhs => rw [← List.take_append_drop m.data.length (raw.data.drop i)]
      rw [← heq]
    · intro j hj
      rw [List.length_take] at hj
      rw [startsHere_eq]
      rw [hnone j (by omega)]
      rfl

lemma hasCloseB_ws_bracket (w post : List Char) (hw : ∀ x ∈ w, isWs x = true)
    (hpost : hasCloseB post = false) : hasCloseB (w ++ ']' :: post) = false := by
  induction w with
  | nil =>
    simp only [List.nil_append, hasCloseB]
    rw [closeLen_cons_ne ']' post (by decide)]
    simpa using hpost
  | cons x w ih =>
    simp only [List.cons_append, hasCloseB]
    rw [closeLen_cons_ne x _ (ws_ne_closeBrace x (hw x (List.mem_cons_self x w)))]
    simpa using ih (fun y hy => hw y (List.mem_cons_of_mem x hy))

lemma lastCloseAux_append (mid w2 post : List Char)
    (hw2 : ∀ x ∈ w2, isWs x = true) (hpost : hasCloseB post = false) :
    lastCloseAux (mid ++ '}' :: (w2 ++ ']' :: post)) =
      some (mid.length, w2.length + 2) := by
  induction mid with
  | nil =>
    simp only [List.nil_append, lastCloseAux]
    rw [lastCloseAux_of_hasCloseB_false _ (hasCloseB_ws_bracket w2 post hw2 hpost)]
    have hcl : closeLen ('}' :: (w2 ++ ']' :: post)) = some (w2.length + 2) := by
      simp only [closeLen]
      rw [dropWhile_append_ws w2 post ']' hw2 (by decide)]
      rw [takeWhile_append_ws w2 post ']' hw2 (by decide)]
      rfl
    rw [hcl]
    rfl
  | cons c mid ih =>
    have hstep : (c :: mid) ++ '}' :: (w2 ++ ']' :: post) =
        c :: (mid ++ '}' :: (w2 ++ ']' :: post)) := rfl
    rw [hstep]
    simp only [lastCloseAux]
    rw [ih]
    simp

lemma jsonMatchAux_skip (pre rest : List Char)
    (h : ∀ j, j < pre.length → tryMatchAt ((pre ++ rest).drop j) = none) :
    jsonMatchAux (pre ++ rest) = jsonMatchAux rest := by
  induction pre with
  | nil => rfl
  | cons c pre ih =>
    simp only [List.cons_append, jsonMatchAux]
    have h0 := h 0 (by simp)
    simp only [List.drop_zero, List.cons_append] at h0
    rw [show tryMatchAt (c :: List.append pre rest) = none from h0]
    exact ih (fun j hj => h (j + 1) (by simp; omega))

lemma jsonMatch_extracts (pre arr post w1 mid w2 : List Char)
    (harr : arr = '[' :: (w1 ++ '{' :: (mid ++ '}' :: (w2 ++ [']']))))
    (hw1 : ∀ x ∈ w1, isWs x = true) (hw2 : ∀ x ∈ w2, isWs x = true)
    (hpre : ∀ j, j < pre.length → tryMatchAt ((pre ++ arr ++ post).drop j) = none)
    (hpost : hasCloseB post = false) :
    jsonMatchAux (pre ++ arr ++ post) = some arr := by
  rw [List.append_assoc]
  rw [jsonMatchAux_skip pre (arr ++ post) (by rw [← List.append_assoc]; exact hpre)]
  subst harr
  have hre : ('[' :: (w1 ++ '{' :: (mid ++ '}' :: (w2 ++ [']'])))) ++ post =
      '[' :: (w1 ++ '{' :: (mid ++ '}' :: (w2 ++ ']' :: post))) := by
    simp
  rw [hre]
  have hos : openSplit ('[' :: (w1 ++ '{' :: (mid ++ '}' :: (w2 ++ ']' :: post)))) =
      some (w1, mid ++ '}' :: (w2 ++ ']' :: post)) := by
    simp only [openSplit]
    rw [dropWhile_append_ws w1 _ '{' hw1 (by decide)]
    rw [takeWhile_append_ws w1 _ '{' hw1 (by decide)]
    rfl
  have htm : tryMatchAt ('[' :: (w1 ++ '{' :: (mid ++ '}' :: (w2 ++ ']' :: post)))) =
      some (2 + w1.length + (mid.length + (w2.length + 2))) := by
    simp only [tryMatchAt]
    rw [hos]
    dsimp only
    rw [lastCloseAux_append mid w2 post hw2 hpost]
    dsimp only
    congr 1
    omega
  simp only [jsonMatchAux]
  rw [htm]
  dsimp only
  congr 1
  have hlen : 2 + w1.length + (mid.length + (w2.length + 2)) =
      ('[' :: (w1 ++ '{' :: (mid ++ '}' :: (w2 ++ [']'])))).length := by
    simp [List.length_append]
    omega
  rw [hlen, ← hre]
  exact List.take_left ..

lemma mem_of_dropWhile (p : Char → Bool) (l : List Char) (x : Char)
    (h : x ∈ l.dropWhile p) : x ∈ l := by
  induction l with
  | nil => simp at h
  | cons c rest ih =>
    rw [List.dropWhile_cons] at h
    by_cases hc : p c
    · simp only [hc, if_true] at h
      exact List.mem_cons_of_mem c (ih h)
    · simp only [hc] at h
      simpa using h

lemma hasCloseB_no_bracket (l : List Char) (h : ∀ x ∈ l, x ≠ ']') :
    hasCloseB l = false := by
  induction l with
  | nil => rfl
  | cons c rest ih =>
    simp only [hasCloseB]
    have hcl : closeLen (c :: rest) = none := by
      by_cases hc : c = '}'
      · subst hc
        simp only [closeLen]
        cases hd : rest.dropWhile isWs with
        | nil => rfl
        | cons c2 t =>
          have hc2 : c2 ≠ ']' :=
            h c2 (List.mem_cons_of_mem _
              (mem_of_dropWhile isWs rest c2 (hd ▸ List.mem_cons_self c2 t)))
          split
          · rename_i heq
            injection heq with ha _
            exact absurd ha hc2
          · rfl
      · exact closeLen_cons_ne c rest hc
    rw [hcl]
    simpa using ih (fun x hx => h x (List.mem_cons_of_mem c hx))

lemma pre_no_bracket_skip (pre rest : List Char) (h : ∀ x ∈ pre, x ≠ '[') :
    ∀ j, j < pre.length → tryMatchAt ((pre ++ rest).drop j) = none := by
  induction pre with
  | nil => intro j hj; simp at hj
  | cons c pre ih =>
    intro j hj
    cases j with
    | zero =>
      simp only [List.drop_zero, List.cons_append]
      exact tryMatchAt_cons_ne c _ (h c (List.mem_cons_self c pre))
    | succ j2 =>
      rw [List.cons_append, List.drop_succ_cons]
      exact ih (fun x hx => h x (List.mem_cons_of_mem c hx)) j2 (by simpa using hj)

/-- C6: parser round-trip.  For raw output made of prose (containing no
`[`), then a JSON array of objects, then trailing text (containing no `]`),
the parse block extracts exactly the array region and returns its parse; on
a raw string that is just such an array, the parser returns the very same
parse — the array verbatim, with no renumbering and no dedup. -/
theorem parser_round_trip (pre arr post : String) (w1 mid w2 : List Char)
    (L : List Json)
    (hshape : arr.data = '[' :: (w1 ++ '{' :: (mid ++ '}' :: (w2 ++ [']']))))
    (hw1 : ∀ x ∈ w1, isWs x = true) (hw2 : ∀ x ∈ w2, isWs x = true)
    (hpre : ∀ x ∈ pre.data, x ≠ '[')
    (hpost : ∀ x ∈ post.data, x ≠ ']')
    (hparse : jsonParse arr = some (Json.arr L)) :
    jsonMatch (pre ++ arr ++ post) = some arr ∧
    parseSlides (pre ++ arr ++ post) = some (Json.arr L) ∧
    parseSlides arr = some (Json.arr L) := by
  have hdata : (pre ++ arr ++ post).data = pre.data ++ arr.data ++ post.data := by
    rw [String.data_append, String.data_append]
  have hmatch : jsonMatchAux (pre.data ++ arr.data ++ post.data) = some arr.data := by
    apply jsonMatch_extracts pre.data arr.data post.data w1 mid w2 hshape hw1 hw2
      ?_ (hasCloseB_no_bracket post.data hpost)
    intro j hj
    rw [List.append_assoc]
    exact pre_no_bracket_skip pre.data (arr.data ++ post.data) hpre j hj
  have h1 : jsonMatch (pre ++ arr ++ post) = some arr := by
    unfold jsonMatch
    rw [hdata, hmatch]
    rfl
  have h3 : jsonMatch arr = some arr := by
    have hx := jsonMatch_extracts [] arr.data [] w1 mid w2 hshape hw1 hw2
      (by intro j hj; simp at hj) rfl
    simp only [List.nil_append, List.append_nil] at hx
    unfold jsonMatch
    rw [hx]
    rfl
  refine ⟨h1, ?_, ?_⟩
  · unfold parseSlides
    rw [h1]
    exact hparse
  · unfold parseSlides
    rw [h3]
    exact hparse

/-- Closed instance of C6's theorem at the spec's example shape: prose, then
a one-slide array, then trailing text. -/
theorem parser_round_trip_witness :
    jsonMatch ("Intro text\n" ++ cleanRaw ++ "\nTrailing") = some cleanRaw ∧
    parseSlides ("Intro text\n" ++ cleanRaw ++ "\nTrailing") = some (Json.arr [cleanSlide]) ∧
    parseSlides cleanRaw = some (Json.arr [cleanSlide]) :=
  parser_round_trip "Intro text\n" cleanRaw "\nTrailing" []
    ("\"slideNumber\":1,\"title\":\"T\"").data [] [cleanSlide]
    rfl (by simp) (by simp) (by decide) (by decide) rfl

/-- C1 counterexample: on raw output whose prose carries a bracketed
reference ("See [1] below.") before the JSON array, the claim's described
procedure — start at the first `[` that is eventually followed by `{`, run
to the last `]` — selects a substring whose parse fails, so the claimed
parser fails; the code's parse block instead matches from the `[` directly
preceding the `{` and succeeds with the array. -/
theorem spec_rule_misreads_first_bracket :
    specJsonMatch refRaw = some "[1] below.\n[\x7b\"a\":1\x7d]" ∧
    specParseSlides refRaw = none ∧
    parseSlides refRaw = some (Json.arr [Json.obj [("a", Json.num "1")]]) :=
  ⟨rfl, rfl, rfl⟩

/-- Closed instance of C1's amended theorem: the matched substring of the
counterexample text is what the parse block parses. -/
theorem regex_extraction_rule_witness :
    parseSlides refRaw = jsonParse "[\x7b\"a\":1\x7d]" :=
  ((regex_extraction_rule refRaw).2 "[\x7b\"a\":1\x7d]" rfl).1
